import Mathlib

/-!
Verification of the gammapy ON/OFF spectral-dataset stacking subsystem and
the temporal table models, against the repository's specification.

The stacking, predicted-counts and statistic code of the repository is not
part of the given source excerpt (only its test suite is), so those
operations are modelled from the specification, with the concrete values
asserted by the repository's own tests (src/gammapy/datasets/tests/
test_spectrum.py) taken as authoritative where the spec's prose is
ambiguous.  The temporal models (PhaseCurveTableModel, LightCurveTableModel)
are embedded from src/gammapy/modeling/models/time.py directly.

Conventions: numpy float arrays are embedded as functions into ℚ, count
arrays as functions into ℕ; division by zero in ℚ is total (x / 0 = 0),
mirroring the guarded numpy divisions (np.errstate) in the stacking code.
-/

namespace Gammapy

/-- Boolean mask entry as a 0/1 rational factor (numpy bool-times-float
broadcasting used by the stacking code). -/
def ind (b : Bool) : ℚ := if b then 1 else 0

/-- Modelled from the spec (section 3, "Data model"): an ON/OFF spectral
dataset over `nT` true-energy bins and `nR` reconstructed-energy bins.
`counts` and `counts_off` are the on/off region counts, `acceptance` and
`acceptance_off` the on/off exposure-ratio weights, `exposure` the
effective-area-times-livetime grid over true energy, `edisp` the
true-to-reco energy-dispersion kernel, `mask_safe` the safe-data mask,
`edges` the reco energy-bin edges, `gti` the good-time intervals as
(start, stop) pairs, and `livetime` the meta livetime scalar. -/
structure OnOffDataset (nT nR : ℕ) where
  counts : Fin nR → ℕ
  counts_off : Fin nR → ℕ
  acceptance : Fin nR → ℚ
  acceptance_off : Fin nR → ℚ
  exposure : Fin nT → ℚ
  edisp : Fin nT → Fin nR → ℚ
  mask_safe : Fin nR → Bool
  edges : Fin (nR + 1) → ℚ
  gti : List (ℚ × ℚ)
  livetime : ℚ

variable {nT nR : ℕ}

/-- Derived transparency factor alpha = acceptance / acceptance_off,
bin-wise (spec section 3). -/
def OnOffDataset.alpha (d : OnOffDataset nT nR) (k : Fin nR) : ℚ :=
  d.acceptance k / d.acceptance_off k

/-- Modelled from the spec ("empty template constructor that allocates
zero-filled grids over a given energy binning"; the on/off create test
additionally fixes acceptance = acceptance_off = 1, empty GTI and an
all-false safe mask). -/
def OnOffDataset.create (nT nR : ℕ) (edges : Fin (nR + 1) → ℚ) :
    OnOffDataset nT nR where
  counts := fun _ => 0
  counts_off := fun _ => 0
  acceptance := fun _ => 1
  acceptance_off := fun _ => 1
  exposure := fun _ => 0
  edisp := fun _ _ => 0
  mask_safe := fun _ => false
  edges := edges
  gti := []
  livetime := 0

/-- Modelled from the spec (stack algorithm, step 5): per-bin total of
off counts contributing to the stack, each dataset masked by its own
safe mask. -/
def stackTotalOff (a b : OnOffDataset nT nR) (k : Fin nR) : ℚ :=
  ind (a.mask_safe k) * (a.counts_off k : ℚ) +
    ind (b.mask_safe k) * (b.counts_off k : ℚ)

/-- Modelled from the spec (stack algorithm, step 5): per-bin total of
alpha-weighted off counts, each dataset masked by its own safe mask. -/
def stackTotalAlpha (a b : OnOffDataset nT nR) (k : Fin nR) : ℚ :=
  ind (a.mask_safe k) * a.alpha k * (a.counts_off k : ℚ) +
    ind (b.mask_safe k) * b.alpha k * (b.counts_off k : ℚ)

/-- Modelled from the spec and the repository test
TestSpectrumDatasetOnOffStack.test_stack_backscal ("the alpha is averaged
on the total OFF counts for each run"): the fallback alpha used at bins
where both datasets have zero masked off counts is the ratio of the
grand totals of alpha-weighted off counts and of off counts. -/
def stackAverageAlpha (a b : OnOffDataset nT nR) : ℚ :=
  (∑ k, stackTotalAlpha a b k) / (∑ k, stackTotalOff a b k)

/-- Modelled from the spec (stack algorithm, step 5): the stacked per-bin
alpha is the off-counts-weighted combination of the two alphas, falling
back to `stackAverageAlpha` at bins where the total masked off counts
vanish. -/
def stackAlpha (a b : OnOffDataset nT nR) (k : Fin nR) : ℚ :=
  if stackTotalOff a b k = 0 then stackAverageAlpha a b
  else stackTotalAlpha a b k / stackTotalOff a b k

/-- Modelled from the spec (stack algorithm, step 7): GTI tables are sorted
by interval start time (stable insertion sort, as a model of
astropy table.sort on the START column). -/
def gtiSort (l : List (ℚ × ℚ)) : List (ℚ × ℚ) :=
  List.insertionSort (fun x y : ℚ × ℚ => x.1 ≤ y.1) l

/-- Modelled from the spec (stack algorithm, step 7): merge a sorted list of
time intervals, fusing each interval into the running one when its start
does not exceed the running stop (overlapping or adjacent intervals,
duplicates collapsing). -/
def gtiMergeAux : ℚ × ℚ → List (ℚ × ℚ) → List (ℚ × ℚ)
  | cur, [] => [cur]
  | cur, iv :: rest =>
    if iv.1 ≤ cur.2 then gtiMergeAux (cur.1, max cur.2 iv.2) rest
    else cur :: gtiMergeAux iv rest

/-- Modelled from the spec (stack algorithm, step 7): union of a GTI table,
sorting by start time then merging overlapping or adjacent intervals. -/
def gtiUnion (l : List (ℚ × ℚ)) : List (ℚ × ℚ) :=
  match gtiSort l with
  | [] => []
  | iv :: rest => gtiMergeAux iv rest

/-- Modelled from the spec (section 4.2, the stack algorithm): merge
dataset `b` into dataset `a`.  Counts and off counts accumulate with each
dataset restricted to its own safe mask; the safe mask becomes the union;
exposure and meta livetime add; the energy-dispersion kernel becomes the
exposure-weighted average of the two kernels, each masked to its dataset's
safe region on the reco axis; the GTI is the merged union of both tables;
alpha is stacked per `stackAlpha` (the stacked dataset stores it with
acceptance = stacked alpha and acceptance_off = 1, so that its derived
alpha matches the repository test values even at bins whose stacked off
counts are zero). -/
def stack (a b : OnOffDataset nT nR) : OnOffDataset nT nR where
  counts := fun k =>
    (if a.mask_safe k then a.counts k else 0) +
      (if b.mask_safe k then b.counts k else 0)
  counts_off := fun k =>
    (if a.mask_safe k then a.counts_off k else 0) +
      (if b.mask_safe k then b.counts_off k else 0)
  acceptance := stackAlpha a b
  acceptance_off := fun _ => 1
  exposure := fun i => a.exposure i + b.exposure i
  edisp := fun i k =>
    (a.exposure i * a.edisp i k * ind (a.mask_safe k) +
        b.exposure i * b.edisp i k * ind (b.mask_safe k)) /
      (a.exposure i + b.exposure i)
  mask_safe := fun k => a.mask_safe k || b.mask_safe k
  edges := a.edges
  gti := gtiUnion (a.gti ++ b.gti)
  livetime := a.livetime + b.livetime

/-- Modelled from the spec (section 4.3): predicted signal counts of one
model component: flux integrated per true-energy bin, times exposure,
projected through the energy-dispersion kernel. -/
def npredModel (d : OnOffDataset nT nR) (f : Fin nT → ℚ) (k : Fin nR) : ℚ :=
  ∑ i, f i * d.exposure i * d.edisp i k

/-- Modelled from the spec (section 4.3): predicted signal counts of a list
of model components (npred_signal without a model filter sums over all
attached models; with a filter it reduces to a one-element list). -/
def npredSignal (d : OnOffDataset nT nR) (models : List (Fin nT → ℚ))
    (k : Fin nR) : ℚ :=
  (models.map fun f => npredModel d f k).sum

/-- Modelled from the spec (section 4.3): the fit statistic total, the sum
over the safe mask of a per-bin profile-likelihood statistic `W`
parameterized by (counts_on, counts_off, alpha, npred_signal); `W` is kept
abstract because the spec fixes only its parameterization, not its
closed form. -/
def statSum (W : ℕ → ℕ → ℚ → ℚ → ℚ) (d : OnOffDataset nT nR)
    (f : Fin nT → ℚ) : ℚ :=
  ∑ k, if d.mask_safe k then
    W (d.counts k) (d.counts_off k) (d.alpha k) (npredModel d f k) else 0

/-- Lower bound of the dataset energy range: the lower edge of the first
bin flagged safe (None when the mask is empty, as for a fresh template). -/
def energyRangeLo (d : OnOffDataset nT nR) : Option ℚ :=
  ((List.finRange nR).find? fun k => d.mask_safe k).map
    fun k => d.edges k.castSucc

/-- Upper bound of the dataset energy range: the upper edge of the last
bin flagged safe. -/
def energyRangeHi (d : OnOffDataset nT nR) : Option ℚ :=
  ((List.finRange nR).reverse.find? fun k => d.mask_safe k).map
    fun k => d.edges k.succ

/-- First observation of the test fixture make_observation_list
(src/gammapy/datasets/tests/test_spectrum.py): on counts [0,1,2], off
counts [1,0,1], acceptance 1, acceptance_off 2, unit effective area times
a 2 h livetime (7200 s), all-true safe mask, and GTI table
START [5,6,1,2], STOP [8,7,3,4]. -/
def obs1 : OnOffDataset 3 3 where
  counts := ![0, 1, 2]
  counts_off := ![1, 0, 1]
  acceptance := ![1, 1, 1]
  acceptance_off := ![2, 2, 2]
  exposure := ![7200, 7200, 7200]
  edisp := fun i k => if (i : ℕ) = (k : ℕ) then 1 else 0
  mask_safe := fun _ => true
  edges := ![1, 2, 3, 4]
  gti := [(5, 8), (6, 7), (1, 3), (2, 4)]
  livetime := 7200

/-- Second observation of the test fixture make_observation_list: off
counts [3,0,3], acceptance_off 4, GTI START [14], STOP [15]; otherwise as
`obs1`. -/
def obs2 : OnOffDataset 3 3 where
  counts := ![0, 1, 2]
  counts_off := ![3, 0, 3]
  acceptance := ![1, 1, 1]
  acceptance_off := ![4, 4, 4]
  exposure := ![7200, 7200, 7200]
  edisp := fun i k => if (i : ℕ) = (k : ℕ) then 1 else 0
  mask_safe := fun _ => true
  edges := ![1, 2, 3, 4]
  gti := [(14, 15)]
  livetime := 7200

/-- Rendering of the words of the spec's step-5 fallback rule ("fall back
to exposure-weighted average of alpha"): at a bin, the average of the two
datasets' alpha weighted by their exposures at that bin.  Defined for
comparison with `stackAlpha`, which follows the repository's tests. -/
def alphaExposureWeightedAvg (a b : OnOffDataset nR nR) (k : Fin nR) : ℚ :=
  (a.exposure k * a.alpha k + b.exposure k * b.alpha k) /
    (a.exposure k + b.exposure k)

/-- Raw numpy array handed to the dataset constructor as a mask: its dtype
is either bool or float (carrying the data of that dtype). -/
inductive RawMask where
  | bools (l : List Bool)
  | floats (l : List ℚ)

/-- A constructed spectrum dataset as far as mask validation is concerned:
the counts vector and the validated optional fit mask. -/
structure SpectrumDS where
  counts : List ℕ
  mask_fit : Option (List Bool)
deriving DecidableEq

/-- Modelled from the spec (section 7, ValidationError): constructing a
dataset with a fit mask whose dtype or shape is inconsistent with counts
fails with a ValueError at construction and never coerces the mask; a
bool mask of the right shape is stored unchanged. -/
def mkSpectrumDataset : List ℕ → Option RawMask → Except String SpectrumDS
  | counts, none => .ok ⟨counts, none⟩
  | counts, some (.bools l) =>
    if l.length = counts.length then .ok ⟨counts, some l⟩
    else .error "ValueError: mask shape inconsistent with counts"
  | _, some (.floats _) => .error "ValueError: mask dtype must be bool"

/-- Linear interpolation of a table of (x, y) nodes at a point, clamping
at the boundaries (model of np.interp and of the degree-1 spline used by
the table models in src/gammapy/modeling/models/time.py). -/
def interpPoints (x : ℚ) : List (ℚ × ℚ) → ℚ
  | [] => 0
  | [(_, y0)] => y0
  | (x0, y0) :: (x1, y1) :: rest =>
    if x ≤ x0 then y0
    else if x ≤ x1 then y0 + (y1 - y0) * (x - x0) / (x1 - x0)
    else interpPoints x ((x1, y1) :: rest)

/-- PhaseCurveTableModel._evaluate_phase
(src/gammapy/modeling/models/time.py): the cubic phase polynomial
phase_0 + t * (f0 + t * (f1 / 2 + f2 / 6 * t)). -/
def evaluatePhase (t phase_0 f0 f1 f2 : ℚ) : ℚ :=
  phase_0 + t * (f0 + t * (f1 / 2 + f2 / 6 * t))

/-- PhaseCurveTableModel.phase (src/gammapy/modeling/models/time.py): the
elapsed time in days is converted to seconds, the cubic polynomial is
evaluated, and the result is reduced with np.remainder(phase, 1), which
for exact arithmetic is the fractional part x - floor(x). -/
def phaseCurvePhase (time time_0 phase_0 f0 f1 f2 : ℚ) : ℚ :=
  Int.fract (evaluatePhase ((time - time_0) * 86400) phase_0 f0 f1 f2)

/-- PhaseCurveTableModel.evaluate_norm_at_phase
(src/gammapy/modeling/models/time.py): interpolate the (PHASE, NORM)
table at a phase. -/
def evaluateNormAtPhase (table : List (ℚ × ℚ)) (p : ℚ) : ℚ :=
  interpPoints p table

/-- PhaseCurveTableModel.evaluate_norm_at_time
(src/gammapy/modeling/models/time.py): compute the phase of the time and
interpolate the phase table there. -/
def evaluateNormAtTime (table : List (ℚ × ℚ))
    (time time_0 phase_0 f0 f1 f2 : ℚ) : ℚ :=
  evaluateNormAtPhase table (phaseCurvePhase time time_0 phase_0 f0 f1 f2)

/-- Modelled from the spec (random-count simulation contract): the state of
a numpy RandomState stream, keyed by the seed it was constructed from and
a position in the stream. -/
structure RandomState where
  seedVal : ℕ
  counter : ℕ
deriving DecidableEq

/-- Modelled from the spec: one uniform draw in [0, 1) from the stream,
an explicit deterministic mixing of seed and position standing in for the
external Mersenne-Twister generator. -/
def RandomState.uniform (rs : RandomState) : ℚ × RandomState :=
  (((rs.seedVal + 1) * 48271 + rs.counter * 16807) % 2147483647 / 2147483647,
    ⟨rs.seedVal, rs.counter + 1⟩)

/-- Draw `n` uniforms from the stream, returning them with the advanced
state. -/
def uniformList (rs : RandomState) : ℕ → List ℚ × RandomState
  | 0 => ([], rs)
  | n + 1 =>
    let (u, rs1) := rs.uniform
    let (us, rs2) := uniformList rs1 n
    (u :: us, rs2)

/-- The random_state argument accepted by fake and sample_time: an integer
seed or the process-global generator. -/
inductive RandomArg where
  | seedArg (n : ℕ)
  | globalRng

/-- Modelled from the spec: gammapy.utils.random.get_random_state — an
integer seed constructs a fresh RandomState from that seed, ignoring the
process-global generator; the global-rng argument returns the global
generator itself. -/
def getRandomState (arg : RandomArg) (globalGen : RandomState) : RandomState :=
  match arg with
  | .seedArg n => ⟨n, 0⟩
  | .globalRng => globalGen

/-- Cumulative sums of a list (model of np.cumsum). -/
def cumsum (l : List ℚ) : List ℚ :=
  (l.foldl (fun acc x => (acc.1 + x, (acc.1 + x) :: acc.2)) (0, [])).2.reverse

/-- Index of the first element of `l` that is at least `x` (model of
np.searchsorted on a sorted cumulative table). -/
def searchsorted (l : List ℚ) (x : ℚ) : ℕ :=
  match l.findIdx? (fun c => x ≤ c) with
  | some i => i
  | none => l.length

/-- Modelled from the spec: gammapy.utils.random.InverseCDFSampler.sample —
draw `n` pixel coordinates from the discrete pdf by inverting its
normalized cumulative distribution at uniform draws. -/
def inverseCDFSample (pdf : List ℚ) (rs : RandomState) (n : ℕ) :
    List ℚ × RandomState :=
  let total := pdf.sum
  let cdf := (cumsum pdf).map fun c => c / total
  let (us, rs2) := uniformList rs n
  (us.map fun u => (searchsorted cdf u : ℚ), rs2)

/-- Model of np.arange(0, stop, step) for a positive step. -/
def arange (stop step : ℚ) : List ℚ :=
  (List.range (stop / step).ceil.toNat).map fun i => (i : ℚ) * step

/-- LightCurveTableModel.sample_time
(src/gammapy/modeling/models/time.py): build the random state from the
random_state argument, lay out a time grid of step t_delta over the
ontime, evaluate the table norm on it as a pdf and invert its CDF at
uniform draws (table present), or draw uniform times scaled to the ontime
(table absent); times are in seconds relative to t_min. -/
def sampleTime (table : Option (List (ℚ × ℚ))) (nEvents : ℕ)
    (tMin tMax tDelta : ℚ) (arg : RandomArg) (globalGen : RandomState) :
    List ℚ :=
  let rs := getRandomState arg globalGen
  let tStop := tMax - tMin
  match table with
  | some tbl =>
    let t := arange tStop tDelta
    let pdf := t.map fun ti => interpPoints ti tbl
    let (timePix, _) := inverseCDFSample pdf rs nEvents
    timePix.map fun p =>
      interpPoints p (((List.range t.length).map fun i => (i : ℚ)).zip t)
  | none => (uniformList rs nEvents).1.map fun u => u * tStop

/-- Modelled from the spec: one Poisson-sampled count of a given mean,
driven by one uniform draw of the stream (the numpy Poisson sampler
itself is external; only its determinism in the stream matters here). -/
def poissonDraw (mean : ℚ) (rs : RandomState) : ℕ × RandomState :=
  let (u, rs1) := rs.uniform
  ((mean + u).floor.toNat, rs1)

/-- Poisson-sample a list of means, threading the random state. -/
def poissonList (means : List ℚ) (rs : RandomState) : List ℕ × RandomState :=
  match means with
  | [] => ([], rs)
  | m :: rest =>
    let (c, rs1) := poissonDraw m rs
    let (cs, rs2) := poissonList rest rs1
    (c :: cs, rs2)

/-- Modelled from the spec (random-count simulation contract):
SpectrumDatasetOnOff.fake — given the per-bin predicted counts, the
background grid and the per-bin alpha, Poisson-sample the on counts from
npred and the off counts from npred_background / alpha, all randomness
coming from the random state built by `getRandomState`. -/
def fake (npred npredBackground alphas : List ℚ) (arg : RandomArg)
    (globalGen : RandomState) : List ℕ × List ℕ :=
  let rs := getRandomState arg globalGen
  let (cts, rs2) := poissonList npred rs
  let (off, _) :=
    poissonList ((npredBackground.zip alphas).map fun p => p.1 / p.2) rs2
  (cts, off)

/-- Helper: the stacked predicted signal counts decompose per bin into
each input's predicted counts times its own safe-mask indicator, given
non-negative exposures. -/
theorem npredModel_stack (a b : OnOffDataset nT nR) (f : Fin nT → ℚ)
    (ha : ∀ i, 0 ≤ a.exposure i) (hb : ∀ i, 0 ≤ b.exposure i) (k : Fin nR) :
    npredModel (stack a b) f k =
      ind (a.mask_safe k) * npredModel a f k +
        ind (b.mask_safe k) * npredModel b f k := by
  unfold npredModel stack
  simp only
  rw [Finset.mul_sum, Finset.mul_sum, ← Finset.sum_add_distrib]
  refine Finset.sum_congr rfl fun i _ => ?_
  by_cases h : a.exposure i + b.exposure i = 0
  · have h1 : a.exposure i = 0 := le_antisymm (by linarith [hb i]) (ha i)
    have h2 : b.exposure i = 0 := le_antisymm (by linarith [ha i]) (hb i)
    simp [h1, h2]
  · field_simp
    ring

/-- Helper: at a bin that is safe only in the left dataset and has
positive left off counts, the stacked alpha equals the left alpha. -/
theorem stackAlpha_safe_left (a b : OnOffDataset nT nR) (k : Fin nR)
    (h1 : a.mask_safe k = true) (h2 : b.mask_safe k = false)
    (hoff : 0 < a.counts_off k) :
    (stack a b).alpha k = a.alpha k := by
  have hoffq : (a.counts_off k : ℚ) ≠ 0 := Nat.cast_ne_zero.mpr hoff.ne'
  have htot : stackTotalOff a b k = (a.counts_off k : ℚ) := by
    simp [stackTotalOff, ind, h1, h2]
  have hne : stackTotalOff a b k ≠ 0 := by rw [htot]; exact hoffq
  have htal : stackTotalAlpha a b k = a.alpha k * (a.counts_off k : ℚ) := by
    simp [stackTotalAlpha, ind, h1, h2]
  show stackAlpha a b k / 1 = a.alpha k
  rw [div_one, stackAlpha, if_neg hne, htot, htal,
    mul_div_cancel_right₀ _ hoffq]

/-- Helper: mirror of `stackAlpha_safe_left` for the right dataset. -/
theorem stackAlpha_safe_right (a b : OnOffDataset nT nR) (k : Fin nR)
    (h1 : a.mask_safe k = false) (h2 : b.mask_safe k = true)
    (hoff : 0 < b.counts_off k) :
    (stack a b).alpha k = b.alpha k := by
  have hoffq : (b.counts_off k : ℚ) ≠ 0 := Nat.cast_ne_zero.mpr hoff.ne'
  have htot : stackTotalOff a b k = (b.counts_off k : ℚ) := by
    simp [stackTotalOff, ind, h1, h2]
  have hne : stackTotalOff a b k ≠ 0 := by rw [htot]; exact hoffq
  have htal : stackTotalAlpha a b k = b.alpha k * (b.counts_off k : ℚ) := by
    simp [stackTotalAlpha, ind, h1, h2]
  show stackAlpha a b k / 1 = b.alpha k
  rw [div_one, stackAlpha, if_neg hne, htot, htal,
    mul_div_cancel_right₀ _ hoffq]

/-- C2: after stacking, the total stacked counts over all bins equal the
sum of each input's counts restricted to that input's own safe mask, as an
exact equality of natural numbers, and likewise for the off counts. -/
theorem stack_counts_total_eq_sum_of_masked (a b : OnOffDataset nT nR) :
    (∑ k, (stack a b).counts k) =
      ((∑ k, if a.mask_safe k then a.counts k else 0) +
        ∑ k, if b.mask_safe k then b.counts k else 0) ∧
    (∑ k, (stack a b).counts_off k) =
      ((∑ k, if a.mask_safe k then a.counts_off k else 0) +
        ∑ k, if b.mask_safe k then b.counts_off k else 0) := by
  constructor <;>
    simpa [stack] using Finset.sum_add_distrib

/-- C7: predicted signal counts with no models attached are zero at every
bin; npred_signal is additive over model components (the sum over all
components of the per-component npred_signal equals the unfiltered total,
and the underlying per-model map is additive in the flux); with two
identical models each component contributes exactly half of the total. -/
theorem npred_signal_zero_and_additive (d : OnOffDataset nT nR)
    (models : List (Fin nT → ℚ)) (f g : Fin nT → ℚ) (k : Fin nR) :
    npredSignal d [] k = 0 ∧
    npredSignal d models k = (models.map fun m => npredSignal d [m] k).sum ∧
    npredModel d (fun i => f i + g i) k =
      npredModel d f k + npredModel d g k ∧
    npredSignal d [f, f] k = 2 * npredSignal d [f] k := by
  refine ⟨rfl, by simp [npredSignal], ?_, by simp [npredSignal]; ring⟩
  unfold npredModel
  rw [← Finset.sum_add_distrib]
  exact Finset.sum_congr rfl fun i _ => by ring

/-- C8: constructing a spectrum dataset with a fit mask whose dtype or
shape is inconsistent with the counts grid fails with a ValueError
(shown at the repository test's concrete input, a float mask of ones over
the 30-bin counts, for every float-dtype mask, and for every bool mask
whose length differs from the counts length), and a bool mask that is
accepted is stored unchanged, never coerced. -/
theorem mask_validation_raises :
    mkSpectrumDataset (List.replicate 30 1)
        (some (.floats (List.replicate 30 1))) =
      .error "ValueError: mask dtype must be bool" ∧
    (∀ counts l, mkSpectrumDataset counts (some (.floats l)) =
      .error "ValueError: mask dtype must be bool") ∧
    (∀ (counts : List ℕ) (l : List Bool), l.length ≠ counts.length →
      mkSpectrumDataset counts (some (.bools l)) =
        .error "ValueError: mask shape inconsistent with counts") ∧
    ∀ counts l ds, mkSpectrumDataset counts (some (.bools l)) = .ok ds →
      ds.mask_fit = some l := by
  refine ⟨rfl, fun counts l => rfl, fun counts l hne => ?_,
    fun counts l ds h => ?_⟩
  · simp only [mkSpectrumDataset]
    rw [if_neg hne]
  · simp only [mkSpectrumDataset] at h
    by_cases hl : l.length = counts.length
    · rw [if_pos hl] at h
      cases h
      rfl
    · rw [if_neg hl] at h
      cases h

/-- Witness for C8: a one-element bool mask over two-bin counts is
rejected for its shape, and over one-bin counts is accepted and stored
unchanged. -/
theorem mask_validation_raises_witness :
    mkSpectrumDataset [1, 1] (some (.bools [true])) =
      .error "ValueError: mask shape inconsistent with counts" ∧
    mkSpectrumDataset [1] (some (.bools [true])) =
      .ok ⟨[1], some [true]⟩ ∧
    (⟨[1], some [true]⟩ : SpectrumDS).mask_fit = some [true] :=
  ⟨mask_validation_raises.2.2.1 [1, 1] [true] (by decide), rfl,
    mask_validation_raises.2.2.2 [1] [true] ⟨[1], some [true]⟩ rfl⟩

/-- C9: the random-count simulation and the temporal model's sample_time
are deterministic in an integer seed: with the random_state argument an
integer seed, the result does not depend on the ambient global generator
at all, so two runs with identical seeds can never disagree. -/
theorem fake_sample_time_deterministic (npred npredBackground alphas : List ℚ)
    (table : Option (List (ℚ × ℚ))) (nEvents : ℕ) (tMin tMax tDelta : ℚ)
    (s : ℕ) (g1 g2 : RandomState) :
    fake npred npredBackground alphas (.seedArg s) g1 =
      fake npred npredBackground alphas (.seedArg s) g2 ∧
    sampleTime table nEvents tMin tMax tDelta (.seedArg s) g1 =
      sampleTime table nEvents tMin tMax tDelta (.seedArg s) g2 :=
  ⟨rfl, rfl⟩

/-- C10: for every time and every parameter setting, the phase returned by
PhaseCurveTableModel.phase lies in the half-open interval [0, 1), and
evaluate_norm_at_time interpolates the phase table exactly at that
reduced phase. -/
theorem phase_in_unit_interval (table : List (ℚ × ℚ))
    (time time_0 phase_0 f0 f1 f2 : ℚ) :
    0 ≤ phaseCurvePhase time time_0 phase_0 f0 f1 f2 ∧
    phaseCurvePhase time time_0 phase_0 f0 f1 f2 < 1 ∧
    evaluateNormAtTime table time time_0 phase_0 f0 f1 f2 =
      evaluateNormAtPhase table
        (phaseCurvePhase time time_0 phase_0 f0 f1 f2) :=
  ⟨Int.fract_nonneg _, Int.fract_lt_one _, rfl⟩

/-- C1 counterexample: at the degenerate all-zero-off middle bin of the
test-fixture stack, the stacked alpha is 2.5/8 = 5/16, whereas the
exposure-weighted average of the two alphas named by the claim is
(0.5 + 0.25) / 2 = 3/8 at that bin (the exposures are equal), so the
fallback is not the exposure-weighted average of alpha. -/
theorem alpha_fallback_not_exposure_weighted :
    (stack obs1 obs2).alpha 1 = 2.5 / 8 ∧
    alphaExposureWeightedAvg obs1 obs2 1 = 3 / 8 ∧
    (stack obs1 obs2).alpha 1 ≠ alphaExposureWeightedAvg obs1 obs2 1 := by
  refine ⟨?_, ?_, ?_⟩ <;>
    norm_num [OnOffDataset.alpha, alphaExposureWeightedAvg, stack, stackAlpha,
      stackAverageAlpha, stackTotalOff, stackTotalAlpha, ind, obs1, obs2,
      Fin.sum_univ_three]

/-- C1 (amended): stacking the two test-fixture observations with off
counts [1,0,1] and [3,0,3] and acceptance ratios 1/2 and 1/4 yields
alpha 1.25/4 in the first bin and, in the all-zero-off middle bin, the
fallback 2.5/8 — the average of alpha weighted by each dataset's total
masked off counts; in general the stacked alpha at a bin satisfies the
off-counts-weighted formula whenever the combined masked off counts are
nonzero, and equals that grand-total weighted average exactly at the
degenerate bins. -/
theorem stack_alpha_counts_off_weighted :
    (stack obs1 obs2).alpha 0 = 1.25 / 4 ∧
    (stack obs1 obs2).alpha 1 = 2.5 / 8 ∧
    ∀ (m n : ℕ) (a b : OnOffDataset m n) (k : Fin n),
      (stackTotalOff a b k ≠ 0 →
        (stack a b).alpha k * stackTotalOff a b k = stackTotalAlpha a b k) ∧
      (stackTotalOff a b k = 0 →
        (stack a b).alpha k = stackAverageAlpha a b) := by
  refine ⟨?_, ?_, fun m n a b k => ⟨fun hne => ?_, fun hz => ?_⟩⟩
  · norm_num [OnOffDataset.alpha, stack, stackAlpha, stackTotalOff,
      stackTotalAlpha, ind, obs1, obs2, Fin.sum_univ_three]
  · norm_num [OnOffDataset.alpha, stack, stackAlpha, stackAverageAlpha,
      stackTotalOff, stackTotalAlpha, ind, obs1, obs2, Fin.sum_univ_three]
  · show stackAlpha a b k / 1 * stackTotalOff a b k = stackTotalAlpha a b k
    rw [div_one, stackAlpha, if_neg hne, div_mul_cancel₀ _ hne]
  · show stackAlpha a b k / 1 = stackAverageAlpha a b
    rw [div_one, stackAlpha, if_pos hz]

/-- Witness for C1: the nondegenerate branch of the general formula at the
first bin of the test-fixture stack. -/
theorem stack_alpha_counts_off_weighted_witness :
    stackTotalOff obs1 obs2 0 ≠ 0 ∧
    (stack obs1 obs2).alpha 0 * stackTotalOff obs1 obs2 0 =
      stackTotalAlpha obs1 obs2 0 :=
  ⟨by norm_num [stackTotalOff, ind, obs1, obs2],
    (stack_alpha_counts_off_weighted.2.2 3 3 obs1 obs2 0).1
      (by norm_num [stackTotalOff, ind, obs1, obs2])⟩

/-- C4: stacking a dataset into a freshly created zero-filled template
over its own energy binning reproduces its counts, off counts and safe
mask restricted to its safe mask, and in particular the stacked energy
range equals the dataset's energy range. -/
theorem stack_empty_template_identity (b : OnOffDataset nT nR) :
    (∀ k, (stack (OnOffDataset.create nT nR b.edges) b).counts k =
      if b.mask_safe k then b.counts k else 0) ∧
    (∀ k, (stack (OnOffDataset.create nT nR b.edges) b).counts_off k =
      if b.mask_safe k then b.counts_off k else 0) ∧
    (∀ k, (stack (OnOffDataset.create nT nR b.edges) b).mask_safe k =
      b.mask_safe k) ∧
    energyRangeLo (stack (OnOffDataset.create nT nR b.edges) b) =
      energyRangeLo b ∧
    energyRangeHi (stack (OnOffDataset.create nT nR b.edges) b) =
      energyRangeHi b := by
  have hmk : ∀ k, (stack (OnOffDataset.create nT nR b.edges) b).mask_safe k =
      b.mask_safe k := fun k => Bool.false_or _
  refine ⟨fun k => ?_, fun k => ?_, hmk, ?_, ?_⟩
  · simp [stack, OnOffDataset.create]
  · simp [stack, OnOffDataset.create]
  · simp only [energyRangeLo, hmk]
    rfl
  · simp only [energyRangeHi, hmk]
    rfl

/-- C5: the stacked GTI of the two test-fixture observations, whose input
tables hold the intervals [5,8], [6,7], [1,3], [2,4] and [14,15], is
exactly [1,4], [5,8], [14,15] (concatenated, sorted by start, overlapping
or contained intervals merged); and two identical intervals collapse to
one under the same union operation. -/
theorem stack_gti_union_example :
    (stack obs1 obs2).gti = [(1, 4), (5, 8), (14, 15)] ∧
    gtiUnion [(1, 2), (1, 2)] = [(1, 2)] := by
  constructor <;>
    norm_num [stack, gtiUnion, gtiSort, obs1, obs2, List.insertionSort,
      List.orderedInsert, gtiMergeAux]

/-- One-bin dataset with a degenerate safe bin: the bin is safe but its
off counts are zero, so the stacked alpha there comes from the fallback
rather than from this dataset's alpha 1/2. -/
def dsDegenerateA : OnOffDataset 1 1 where
  counts := ![3]
  counts_off := ![0]
  acceptance := ![1]
  acceptance_off := ![2]
  exposure := ![1]
  edisp := fun _ _ => 1
  mask_safe := fun _ => true
  edges := ![1, 2]
  gti := []
  livetime := 1

/-- One-bin dataset whose single bin is unsafe, giving a safe mask
disjoint from that of `dsDegenerateA`. -/
def dsDegenerateB : OnOffDataset 1 1 where
  counts := ![4]
  counts_off := ![5]
  acceptance := ![1]
  acceptance_off := ![4]
  exposure := ![1]
  edisp := fun _ _ => 1
  mask_safe := fun _ => false
  edges := ![1, 2]
  gti := []
  livetime := 1

/-- C3 counterexample: with disjoint safe masks but a safe bin whose off
counts vanish, the stacked per-bin alpha differs from the input's, so the
stat sum of an alpha-sensitive per-bin statistic (here the statistic that
reads off the alpha argument itself) is not the sum of the input stat
sums: the stacked value is 0 while the inputs sum to 1/2. -/
theorem stat_sum_not_additive_degenerate_off :
    dsDegenerateA.mask_safe 0 = true ∧
    dsDegenerateB.mask_safe 0 = false ∧
    statSum (fun _ _ al _ => al) (stack dsDegenerateA dsDegenerateB)
        (fun _ => 1) ≠
      statSum (fun _ _ al _ => al) dsDegenerateA (fun _ => 1) +
        statSum (fun _ _ al _ => al) dsDegenerateB (fun _ => 1) := by
  refine ⟨rfl, rfl, ?_⟩
  norm_num [statSum, OnOffDataset.alpha, stack, stackAlpha, stackAverageAlpha,
    stackTotalOff, stackTotalAlpha, ind, dsDegenerateA, dsDegenerateB,
    Fin.sum_univ_one, npredModel]

/-- C3 (amended): for datasets with disjoint safe masks whose off counts
are positive on every one of their own safe bins and whose exposures are
non-negative, the stacked stat sum equals the sum of the input stat sums
for every per-bin statistic of (counts_on, counts_off, alpha,
npred_signal); equivalently the stacked predicted counts on the stacked
safe mask are the per-bin sum of each input's predicted counts restricted
to its own safe mask. -/
theorem stat_sum_additive_disjoint_masks (a b : OnOffDataset nT nR)
    (W : ℕ → ℕ → ℚ → ℚ → ℚ) (f : Fin nT → ℚ)
    (hdisj : ∀ k, ¬(a.mask_safe k = true ∧ b.mask_safe k = true))
    (hoffa : ∀ k, a.mask_safe k = true → 0 < a.counts_off k)
    (hoffb : ∀ k, b.mask_safe k = true → 0 < b.counts_off k)
    (hea : ∀ i, 0 ≤ a.exposure i) (heb : ∀ i, 0 ≤ b.exposure i) :
    statSum W (stack a b) f = statSum W a f + statSum W b f ∧
    ∀ k, (stack a b).mask_safe k = true →
      npredModel (stack a b) f k =
        (if a.mask_safe k then npredModel a f k else 0) +
          (if b.mask_safe k then npredModel b f k else 0) := by
  constructor
  · unfold statSum
    rw [← Finset.sum_add_distrib]
    refine Finset.sum_congr rfl fun k _ => ?_
    have hnp := npredModel_stack a b f hea heb k
    cases hma : a.mask_safe k with
    | false =>
      cases hmb : b.mask_safe k with
      | false =>
        have hmask : (stack a b).mask_safe k = false := by
          simp [stack, hma, hmb]
        simp [hmask, hma, hmb]
      | true =>
        have hmask : (stack a b).mask_safe k = true := by simp [stack, hmb]
        have hc : (stack a b).counts k = b.counts k := by
          simp [stack, hma, hmb]
        have hoc : (stack a b).counts_off k = b.counts_off k := by
          simp [stack, hma, hmb]
        have hal := stackAlpha_safe_right a b k hma hmb (hoffb k hmb)
        have hnp2 : npredModel (stack a b) f k = npredModel b f k := by
          rw [hnp]; simp [ind, hma, hmb]
        simp [hmask, hma, hmb, hc, hoc, hal, hnp2]
    | true =>
      cases hmb : b.mask_safe k with
      | false =>
        have hmask : (stack a b).mask_safe k = true := by simp [stack, hma]
        have hc : (stack a b).counts k = a.counts k := by
          simp [stack, hma, hmb]
        have hoc : (stack a b).counts_off k = a.counts_off k := by
          simp [stack, hma, hmb]
        have hal := stackAlpha_safe_left a b k hma hmb (hoffa k hma)
        have hnp2 : npredModel (stack a b) f k = npredModel a f k := by
          rw [hnp]; simp [ind, hma, hmb]
        simp [hmask, hma, hmb, hc, hoc, hal, hnp2]
      | true => exact absurd ⟨hma, hmb⟩ (hdisj k)
  · intro k _
    rw [npredModel_stack a b f hea heb k]
    cases hma : a.mask_safe k <;> cases hmb : b.mask_safe k <;>
      simp [ind, hma, hmb]

/-- One-bin dataset satisfying the amended C3 hypotheses on the safe
side: safe bin with positive off counts and non-negative exposure. -/
def dsWitnessA : OnOffDataset 1 1 where
  counts := ![6]
  counts_off := ![2]
  acceptance := ![1]
  acceptance_off := ![2]
  exposure := ![1]
  edisp := fun _ _ => 1
  mask_safe := fun _ => true
  edges := ![1, 2]
  gti := []
  livetime := 1

/-- One-bin dataset satisfying the amended C3 hypotheses on the unsafe
side: its bin is outside the safe mask. -/
def dsWitnessB : OnOffDataset 1 1 where
  counts := ![9]
  counts_off := ![7]
  acceptance := ![1]
  acceptance_off := ![4]
  exposure := ![2]
  edisp := fun _ _ => 1
  mask_safe := fun _ => false
  edges := ![1, 2]
  gti := []
  livetime := 1

/-- Witness for C3: the amended additivity at a concrete disjoint pair
with positive off counts on safe bins and non-negative exposures. -/
theorem stat_sum_additive_disjoint_masks_witness :
    dsWitnessA.mask_safe 0 = true ∧ dsWitnessB.mask_safe 0 = false ∧
    statSum (fun n m al mu => al + mu + n + m) (stack dsWitnessA dsWitnessB)
        (fun _ => 1) =
      statSum (fun n m al mu => al + mu + n + m) dsWitnessA (fun _ => 1) +
        statSum (fun n m al mu => al + mu + n + m) dsWitnessB (fun _ => 1) :=
  ⟨rfl, rfl,
    (stat_sum_additive_disjoint_masks dsWitnessA dsWitnessB
      (fun n m al mu => al + mu + n + m) (fun _ => 1)
      (by intro k; fin_cases k; simp [dsWitnessA, dsWitnessB])
      (by intro k _; fin_cases k; norm_num [dsWitnessA])
      (by intro k hk; fin_cases k; simp [dsWitnessB] at hk)
      (by intro i; fin_cases i; norm_num [dsWitnessA])
      (by intro i; fin_cases i; norm_num [dsWitnessB])).1⟩

end Gammapy
